import Mathlib

/-!
Verification of the gdsfactory repository core: the routing-attribute
dictionary builder (source file gdsfactory/route_info.py) and the layered
configuration resolver with provenance tracking, derived constants,
serialization and the read accessor (source file pp/config.py).

Python dictionaries are embedded as insertion-ordered association lists
over string keys; numbers are embedded as exact rationals (no arithmetic
is performed on them by the code under study, they are only copied, so
the exact embedding is faithful).
-/

/-! ## Python dictionaries -/

/-- Python dict assignment d[k] = v: when the key is already present the
binding is replaced in place (insertion order kept), otherwise the new
binding is appended at the end. -/
def dictInsert {α : Type} (d : List (String × α)) (k : String) (v : α) :
    List (String × α) :=
  if d.any (fun e => e.1 == k) then
    d.map (fun e => if e.1 == k then (k, v) else e)
  else
    d ++ [(k, v)]

/-- Python d.update(kw): assignments folded left to right. -/
def dictUpdate {α : Type} (d : List (String × α)) (kw : List (String × α)) :
    List (String × α) :=
  kw.foldl (fun acc e => dictInsert acc e.1 e.2) d

/-- Python d.get(k) / d[k]: the binding for the key, if any. -/
def dictGet {α : Type} (d : List (String × α)) (k : String) : Option α :=
  (d.find? (fun e => e.1 == k)).map (fun e => e.2)

theorem dictInsert_of_forall_ne {α : Type} (d : List (String × α))
    (k : String) (v : α) (h : ∀ e ∈ d, e.1 ≠ k) :
    dictInsert d k v = d ++ [(k, v)] := by
  unfold dictInsert
  rw [if_neg]
  simp only [List.any_eq_true, beq_iff_eq, not_exists, not_and]
  intro e he
  exact fun hk => h e he hk

theorem dictGet_of_forall_ne {α : Type} (d : List (String × α))
    (k : String) (h : ∀ e ∈ d, e.1 ≠ k) : dictGet d k = none := by
  unfold dictGet
  rw [List.find?_eq_none.mpr]
  · rfl
  · intro e he
    simp only [beq_iff_eq]
    exact h e he

/-! ## RouteInfoBuilder (source file gdsfactory/route_info.py) -/

/-- A value stored in a route-info dictionary: the cross-section type is
a string, lengths and weights are numbers. -/
inductive RVal : Type where
  | str (s : String)
  | num (q : ℚ)
  deriving DecidableEq

/-- Embedding of route_info from gdsfactory/route_info.py: builds the
dictionary with keys type, length, the type-qualified length key and
weight (all three length-like keys holding the effective length, which
defaults to the physical length when omitted), adds the type-qualified
taper-length key holding the physical length when taper is set, and then
merges the caller kwargs last via dict update. -/
def route_info (cs_type : String) (length : ℚ) (length_eff : Option ℚ)
    (taper : Bool) (kwargs : List (String × RVal)) : List (String × RVal) :=
  let le := length_eff.getD length
  let d : List (String × RVal) :=
    dictInsert (dictInsert (dictInsert (dictInsert [] ("type") (RVal.str cs_type))
      ("length") (RVal.num le)) (cs_type ++ "_length") (RVal.num le))
      ("weight") (RVal.num le)
  let d := if taper then dictInsert d (cs_type ++ "_taper_length") (RVal.num length) else d
  dictUpdate d kwargs

theorem append_ne_of_length_ne (t s r : String)
    (h : t.length + s.length ≠ r.length) : t ++ s ≠ r := by
  intro he
  apply h
  rw [← String.length_append, he]

theorem type_len : ("type" : String).length = 4 := rfl

theorem length_len : ("length" : String).length = 6 := rfl

theorem weight_len : ("weight" : String).length = 6 := rfl

theorem ulength_len : ("_length" : String).length = 7 := rfl

theorem utaper_len : ("_taper_length" : String).length = 13 := rfl

theorem t_length_ne_type (t : String) : t ++ "_length" ≠ "type" := by
  apply append_ne_of_length_ne
  rw [ulength_len, type_len]; omega

theorem t_length_ne_length (t : String) : t ++ "_length" ≠ "length" := by
  apply append_ne_of_length_ne
  rw [ulength_len, length_len]; omega

theorem t_length_ne_weight (t : String) : t ++ "_length" ≠ "weight" := by
  apply append_ne_of_length_ne
  rw [ulength_len, weight_len]; omega

theorem t_taper_ne_type (t : String) : t ++ "_taper_length" ≠ "type" := by
  apply append_ne_of_length_ne
  rw [utaper_len, type_len]; omega

theorem t_taper_ne_length (t : String) : t ++ "_taper_length" ≠ "length" := by
  apply append_ne_of_length_ne
  rw [utaper_len, length_len]; omega

theorem t_taper_ne_weight (t : String) : t ++ "_taper_length" ≠ "weight" := by
  apply append_ne_of_length_ne
  rw [utaper_len, weight_len]; omega

theorem t_length_ne_t_taper (t : String) : t ++ "_length" ≠ t ++ "_taper_length" := by
  intro he
  have := congrArg String.length he
  rw [String.length_append, String.length_append, ulength_len, utaper_len] at this
  omega

/-- The four successive assignments building the base route-info
dictionary yield the literal four-entry dictionary. -/
theorem base_chain_eq (t : String) (L : ℚ) :
    dictInsert (dictInsert (dictInsert (dictInsert [] ("type") (RVal.str t))
      ("length") (RVal.num L)) (t ++ "_length") (RVal.num L)) ("weight") (RVal.num L) =
      [("type", RVal.str t), ("length", RVal.num L),
       (t ++ "_length", RVal.num L), ("weight", RVal.num L)] := by
  have h2 : ∀ e ∈ [("type", RVal.str t)], e.1 ≠ ("length" : String) := by
    intro e he
    rw [List.mem_singleton] at he
    subst he
    show ("type" : String) ≠ "length"
    decide
  have h3 : ∀ e ∈ [("type", RVal.str t)] ++ [("length", RVal.num L)],
      e.1 ≠ t ++ "_length" := by
    intro e he
    simp only [List.mem_append, List.mem_singleton] at he
    rcases he with h | h <;> subst h
    · exact fun h => t_length_ne_type t h.symm
    · exact fun h => t_length_ne_length t h.symm
  have h4 : ∀ e ∈ ([("type", RVal.str t)] ++ [("length", RVal.num L)])
      ++ [(t ++ "_length", RVal.num L)], e.1 ≠ ("weight" : String) := by
    intro e he
    simp only [List.mem_append, List.mem_singleton] at he
    rcases he with (h | h) | h <;> subst h
    · show ("type" : String) ≠ "weight"
      decide
    · show ("length" : String) ≠ "weight"
      decide
    · exact t_length_ne_weight t
  have h1 : dictInsert ([] : List (String × RVal)) ("type") (RVal.str t)
      = [("type", RVal.str t)] := rfl
  rw [h1, dictInsert_of_forall_ne _ _ _ h2, dictInsert_of_forall_ne _ _ _ h3,
    dictInsert_of_forall_ne _ _ _ h4]
  rfl

/-- Claim C2. For every cross-section type string t and every number L,
building route info with taper false, no extras and length_eff omitted
returns exactly the four-entry mapping type, length, type-qualified
length and weight, all length-like entries holding L; and in general an
omitted length_eff defaults to the physical length. -/
theorem C2_route_info_defaults :
    (∀ (t : String) (L : ℚ),
      route_info t L none false [] =
        [("type", RVal.str t), ("length", RVal.num L),
         (t ++ "_length", RVal.num L), ("weight", RVal.num L)]) ∧
    (∀ (t : String) (L : ℚ) (tp : Bool) (kw : List (String × RVal)),
      route_info t L none tp kw = route_info t L (some L) tp kw) := by
  constructor
  · intro t L
    show dictUpdate (dictInsert (dictInsert (dictInsert (dictInsert []
        ("type") (RVal.str t)) ("length") (RVal.num L)) (t ++ "_length") (RVal.num L))
        ("weight") (RVal.num L)) [] = _
    rw [base_chain_eq]
    rfl
  · intro t L tp kw
    rfl

theorem dictGet_cons_of_eq {α : Type} (e : String × α) (l : List (String × α))
    (k : String) (h : e.1 = k) : dictGet (e :: l) k = some e.2 := by
  unfold dictGet
  rw [List.find?_cons_of_pos _ (by simp [h])]
  rfl

theorem dictGet_cons_of_ne {α : Type} (e : String × α) (l : List (String × α))
    (k : String) (h : e.1 ≠ k) : dictGet (e :: l) k = dictGet l k := by
  unfold dictGet
  rw [List.find?_cons_of_neg _ (by simp [h])]

theorem dictGet_append {α : Type} (l₁ l₂ : List (String × α)) (k : String) :
    dictGet (l₁ ++ l₂) k = (dictGet l₁ k).or (dictGet l₂ k) := by
  unfold dictGet
  rw [List.find?_append]
  cases hf : List.find? (fun e => e.1 == k) l₁ <;> rfl

theorem dictGet_eq_none_iff {α : Type} (l : List (String × α)) (k : String) :
    dictGet l k = none ↔ ∀ e ∈ l, e.1 ≠ k := by
  unfold dictGet
  rw [Option.map_eq_none', List.find?_eq_none]
  constructor
  · intro h e he
    have := h e he
    simpa using this
  · intro h e he
    simpa using h e he

theorem dictGet_dictInsert_self {α : Type} (d : List (String × α))
    (k : String) (v : α) : dictGet (dictInsert d k v) k = some v := by
  unfold dictInsert
  by_cases hc : d.any (fun e => e.1 == k) = true
  · rw [if_pos hc]
    induction d with
    | nil => simp at hc
    | cons e tl ih =>
      rw [List.map_cons]
      by_cases he : e.1 = k
      · rw [if_pos (by simpa using he)]
        exact dictGet_cons_of_eq (k, v) _ k rfl
      · rw [if_neg (by simpa using he)]
        rw [dictGet_cons_of_ne e _ _ he]
        apply ih
        simp only [List.any_cons, Bool.or_eq_true, List.any_eq_true] at hc ⊢
        rcases hc with h | h
        · exact absurd (by simpa using h) he
        · exact h
  · rw [if_neg hc]
    rw [dictGet_append]
    have h1 : dictGet d k = none := by
      rw [dictGet_eq_none_iff]
      intro e he
      rw [Bool.not_eq_true, List.any_eq_false] at hc
      simpa using hc e he
    rw [h1]
    exact dictGet_cons_of_eq (k, v) _ k rfl

theorem dictGet_dictInsert_ne {α : Type} (d : List (String × α))
    (kk k : String) (v : α) (h : kk ≠ k) :
    dictGet (dictInsert d kk v) k = dictGet d k := by
  unfold dictInsert
  by_cases hc : d.any (fun e => e.1 == kk) = true
  · rw [if_pos hc]
    clear hc
    induction d with
    | nil => rfl
    | cons e tl ih =>
      rw [List.map_cons]
      by_cases he : e.1 = kk
      · rw [if_pos (by simpa using he)]
        rw [dictGet_cons_of_ne (kk, v) _ _ h]
        rw [dictGet_cons_of_ne e _ _ (by rw [he]; exact h)]
        exact ih
      · rw [if_neg (by simpa using he)]
        by_cases hek : e.1 = k
        · rw [dictGet_cons_of_eq e _ _ hek, dictGet_cons_of_eq e _ _ hek]
        · rw [dictGet_cons_of_ne e _ _ hek, dictGet_cons_of_ne e _ _ hek]
          exact ih
  · rw [if_neg hc]
    rw [dictGet_append]
    have h2 : dictGet [(kk, v)] k = none := by
      rw [dictGet_eq_none_iff]
      intro e he
      rw [List.mem_singleton] at he
      subst he
      exact h
    rw [h2]
    rcases dictGet d k with _ | w <;> rfl

theorem dictGet_dictUpdate_of_not_mem {α : Type} (d kw : List (String × α))
    (k : String) (h : ∀ e ∈ kw, e.1 ≠ k) :
    dictGet (dictUpdate d kw) k = dictGet d k := by
  induction kw generalizing d with
  | nil => rfl
  | cons e tl ih =>
    show dictGet (dictUpdate (dictInsert d e.1 e.2) tl) k = _
    rw [ih _ (fun x hx => h x (List.mem_cons_of_mem _ hx))]
    exact dictGet_dictInsert_ne _ _ _ _ (h e (List.mem_cons_self _ _))

theorem dictGet_dictUpdate_of_getLast {α : Type} (d kw : List (String × α))
    (k : String) (v : α) (h : dictGet kw.reverse k = some v) :
    dictGet (dictUpdate d kw) k = some v := by
  induction kw generalizing d with
  | nil => exact absurd h (by simp [dictGet])
  | cons e tl ih =>
    show dictGet (dictUpdate (dictInsert d e.1 e.2) tl) k = some v
    rw [List.reverse_cons, dictGet_append] at h
    rcases hr : dictGet tl.reverse k with _ | w
    · rw [hr] at h
      have htl : ∀ x ∈ tl, x.1 ≠ k := by
        intro x hx
        exact (dictGet_eq_none_iff _ _).mp hr x (by simpa using hx)
      rw [dictGet_dictUpdate_of_not_mem _ _ _ htl]
      by_cases hek : e.1 = k
      · have hv : dictGet [e] k = some v := by simpa using h
        rw [dictGet_cons_of_eq e [] k hek] at hv
        rw [hek, dictGet_dictInsert_self]
        exact hv
      · rw [dictGet_cons_of_ne e [] k hek] at h
        simp [dictGet] at h
    · rw [hr] at h
      simp only [Option.or_some, Option.some.injEq] at h
      subst h
      exact ih _ hr

/-- Equations of route_info: the kwargs are merged last onto the
kwarg-free dictionary. -/
theorem route_info_eq_update_base (t : String) (L : ℚ) (le : Option ℚ)
    (tp : Bool) (kw : List (String × RVal)) :
    route_info t L le tp kw = dictUpdate (route_info t L le tp []) kw := rfl

theorem dictUpdate_nil {α : Type} (d : List (String × α)) :
    dictUpdate d [] = d := rfl

/-- The taper branch inserts the type-qualified taper-length key, which
collides with none of the four base keys, so it is appended. -/
theorem taper_chain_eq (t : String) (L le : ℚ) :
    dictInsert [("type", RVal.str t), ("length", RVal.num le),
      (t ++ "_length", RVal.num le), ("weight", RVal.num le)]
      (t ++ "_taper_length") (RVal.num L) =
      [("type", RVal.str t), ("length", RVal.num le),
       (t ++ "_length", RVal.num le), ("weight", RVal.num le),
       (t ++ "_taper_length", RVal.num L)] := by
  have hne : ∀ e ∈ [("type", RVal.str t), ("length", RVal.num le),
      (t ++ "_length", RVal.num le), ("weight", RVal.num le)],
      e.1 ≠ t ++ "_taper_length" := by
    intro e he
    simp only [List.mem_cons, List.not_mem_nil, or_false] at he
    rcases he with h | h | h | h <;> subst h
    · exact fun h => t_taper_ne_type t h.symm
    · exact fun h => t_taper_ne_length t h.symm
    · exact t_length_ne_t_taper t
    · exact fun h => t_taper_ne_weight t h.symm
  rw [dictInsert_of_forall_ne _ _ _ hne]
  rfl

/-- Claim C3. With taper true the type-qualified taper-length key holds
the physical length L while length, the type-qualified length key and
weight all hold the effective length E; with taper false the taper-length
key is absent (provided, for the general kwargs form, that the extras do
not themselves supply that key). -/
theorem C3_route_info_taper :
    (∀ (t : String) (L E : ℚ),
      route_info t L (some E) true [] =
        [("type", RVal.str t), ("length", RVal.num E),
         (t ++ "_length", RVal.num E), ("weight", RVal.num E),
         (t ++ "_taper_length", RVal.num L)]) ∧
    (∀ (t : String) (L : ℚ) (le : Option ℚ) (kw : List (String × RVal)),
      (∀ e ∈ kw, e.1 ≠ t ++ "_taper_length") →
      dictGet (route_info t L le false kw) (t ++ "_taper_length") = none) := by
  constructor
  · intro t L E
    show dictUpdate (dictInsert (dictInsert (dictInsert (dictInsert (dictInsert []
        ("type") (RVal.str t)) ("length") (RVal.num E)) (t ++ "_length") (RVal.num E))
        ("weight") (RVal.num E)) (t ++ "_taper_length") (RVal.num L)) [] = _
    rw [base_chain_eq, taper_chain_eq]
    rfl
  · intro t L le kw hkw
    rw [route_info_eq_update_base, dictGet_dictUpdate_of_not_mem _ _ _ hkw]
    show dictGet (dictUpdate (dictInsert (dictInsert (dictInsert (dictInsert []
        ("type") (RVal.str t)) ("length") (RVal.num (le.getD L)))
        (t ++ "_length") (RVal.num (le.getD L))) ("weight") (RVal.num (le.getD L))) [])
        (t ++ "_taper_length") = none
    rw [dictUpdate_nil, base_chain_eq]
    apply dictGet_of_forall_ne
    intro e he
    simp only [List.mem_cons, List.not_mem_nil, or_false] at he
    rcases he with h | h | h | h <;> subst h
    · exact fun h => t_taper_ne_type t h.symm
    · exact fun h => t_taper_ne_length t h.symm
    · exact t_length_ne_t_taper t
    · exact fun h => t_taper_ne_weight t h.symm

/-- Witness for C3 at the concrete strip taper of the spec example. -/
theorem C3_witness :
    route_info "strip" 10 (some 8) true [] =
      [("type", RVal.str "strip"), ("length", RVal.num 8),
       ("strip" ++ "_length", RVal.num 8), ("weight", RVal.num 8),
       ("strip" ++ "_taper_length", RVal.num 10)] ∧
    (∀ e ∈ ([] : List (String × RVal)), e.1 ≠ "strip" ++ "_taper_length") ∧
    dictGet (route_info "strip" 10 (some 8) false []) ("strip" ++ "_taper_length") = none :=
  ⟨C3_route_info_taper.1 "strip" 10 8, by simp,
   C3_route_info_taper.2 "strip" 10 (some 8) [] (by simp)⟩

/-- Claim C4. The kwargs are merged after the base keys: an extra entry
whose key collides with any already-set key (type, length, weight, the
type-qualified keys) replaces its value with the last extra occurrence,
while keys the extras do not mention read exactly as in the extras-free
dictionary. -/
theorem C4_route_info_extras (t : String) (L : ℚ) (le : Option ℚ)
    (tp : Bool) (kw : List (String × RVal)) (k : String) :
    (∀ v, dictGet kw.reverse k = some v →
      dictGet (route_info t L le tp kw) k = some v) ∧
    (dictGet kw.reverse k = none →
      dictGet (route_info t L le tp kw) k = dictGet (route_info t L le tp []) k) := by
  constructor
  · intro v hv
    rw [route_info_eq_update_base]
    exact dictGet_dictUpdate_of_getLast _ _ _ _ hv
  · intro hnone
    rw [route_info_eq_update_base]
    apply dictGet_dictUpdate_of_not_mem
    intro e he
    exact (dictGet_eq_none_iff _ _).mp hnone e (by simpa using he)

/-- Witness for C4 at the concrete rib example of the spec: the extra
loss entry is added and read back. -/
theorem C4_witness :
    dictGet ([("loss", RVal.num (1/10))] : List (String × RVal)).reverse ("loss")
      = some (RVal.num (1/10)) ∧
    dictGet (route_info "rib" 5 none false [("loss", RVal.num (1/10))]) ("loss")
      = some (RVal.num (1/10)) :=
  ⟨rfl, (C4_route_info_extras "rib" 5 none false [("loss", RVal.num (1/10))] "loss").1
    (RVal.num (1/10)) rfl⟩

/-! ## route_info_from_cs (source file gdsfactory/route_info.py) -/

/-- Modelled from the spec: the cross-section registry
(gdsfactory.get_cross_section) is external to the supplied sources; a
resolved cross section is abstracted by its info dictionary, whose
entries relevant here are strings. -/
structure CrossSection where
  info : List (String × String)

/-- Modelled from the spec: the cross-section type resolved for a
specification, namely the type attribute read from the registry-resolved
cross section, falling back to the string form of the specification when
the attribute is absent. -/
def resolved_cs_type {σ : Type} (get_cross_section : σ → CrossSection)
    (strOf : σ → String) (cs : σ) : String :=
  (dictGet (get_cross_section cs).info ("type")).getD (strOf cs)

/-- Embedding of route_info_from_cs from gdsfactory/route_info.py: the
registry, the string form of a specification and the specification type
are parameters; the body resolves the cross section, reads its type (the
Python x.info.get with default str(cs)) and delegates to route_info with
taper unset. -/
def route_info_from_cs {σ : Type} (get_cross_section : σ → CrossSection)
    (strOf : σ → String) (cs : σ) (length : ℚ) (length_eff : Option ℚ)
    (kwargs : List (String × RVal)) : List (String × RVal) :=
  let x := get_cross_section cs
  let cs_type := (dictGet x.info ("type")).getD (strOf cs)
  route_info cs_type length length_eff false kwargs

/-- Claim C5. The convenience variant returns exactly the mapping the
primary route_info returns when called with the registry-resolved
cross-section type (delegation equivalence). -/
theorem C5_from_cs_delegates {σ : Type} (get_cross_section : σ → CrossSection)
    (strOf : σ → String) (cs : σ) (length : ℚ) (length_eff : Option ℚ)
    (kwargs : List (String × RVal)) :
    route_info_from_cs get_cross_section strOf cs length length_eff kwargs =
      route_info (resolved_cs_type get_cross_section strOf cs)
        length length_eff false kwargs := rfl

/-! ## ConfigMerger (source file pp/config.py, TECH layering)

The three configuration layers of pp/config.py are the packaged default
config.yml, the user-machine file and the working-directory file; the
source merges each readable layer onto the accumulated result with
OmegaConf.merge. The merge itself is external library code, so it is
modelled from the spec contract: deep merge in which each present source
overrides the keys it defines and a redefined nested key is replaced
wholesale at the depth it is specified. A tree-shaped mapping is
represented by its leaf bindings: a finite list of (key path, scalar)
pairs, tree-shapedness meaning no binding path strictly prefixes
another. Under wholesale replacement, a higher-priority binding kills
every lower-priority binding whose path is prefix-comparable with it. -/

/-- A dotted key path into a nested configuration mapping. -/
abbrev KeyPath := List String

/-- A configuration layer: the leaf bindings of a tree-shaped mapping. -/
abbrev CfgLayer (α : Type) := List (KeyPath × α)

/-- Two key paths interfere when one is a prefix of the other (so a
binding at either replaces the whole subtree holding the other). -/
def pathsInterfere (p q : KeyPath) : Bool :=
  p.isPrefixOf q || q.isPrefixOf p

/-- Whether the higher-priority layer b overrides the subtree at path q
wholesale (it binds q itself, a prefix of q, or a path below q). -/
def layerOverrides {α : Type} (b : CfgLayer α) (q : KeyPath) : Bool :=
  b.any (fun e => pathsInterfere e.1 q)

/-- Modelled from the spec: deep merge of a lower-priority layer a with
a higher-priority layer b — b keeps all its bindings and a keeps exactly
the bindings that no binding of b replaces wholesale. -/
def mergeLayers {α : Type} (a b : CfgLayer α) : CfgLayer α :=
  b ++ a.filter (fun e => !(layerOverrides b e.1))

/-- The leaf value a layer holds at a key path, if any. -/
def lookupPath {α : Type} (t : CfgLayer α) (p : KeyPath) : Option α :=
  (t.find? (fun e => e.1 == p)).map (fun e => e.2)

/-- Lookup through an optional (possibly absent or unreadable) layer. -/
def optLayerLookup {α : Type} : Option (CfgLayer α) → KeyPath → Option α
  | none, _ => none
  | some t, p => lookupPath t p

/-- Embedding of the TECH resolution of pp/config.py: load the packaged
default, then merge the user-machine layer when its file is readable,
then merge the working-directory layer when its file is readable; an
absent or unreadable layer (None) is skipped silently. -/
def resolveTECH {α : Type} (default_cfg : CfgLayer α)
    (home_cfg cwd_cfg : Option (CfgLayer α)) : CfgLayer α :=
  let t := default_cfg
  let t := match home_cfg with
    | some h => mergeLayers t h
    | none => t
  match cwd_cfg with
  | some c => mergeLayers t c
  | none => t

/-- A layer is clean for path p when each of its bindings either sits
exactly at p or is prefix-incomparable with p (it neither replaces the
subtree containing p nor turns p into a nested mapping). -/
def cleanFor {α : Type} (p : KeyPath) (t : CfgLayer α) : Prop :=
  ∀ e ∈ t, e.1 = p ∨ pathsInterfere e.1 p = false

/-- Cleanness for an optional layer. -/
def optClean {α : Type} (p : KeyPath) : Option (CfgLayer α) → Prop
  | none => True
  | some t => cleanFor p t

instance cleanForDec {α : Type} (p : KeyPath) (t : CfgLayer α) :
    Decidable (cleanFor p t) := by
  unfold cleanFor
  infer_instance

instance optCleanDec {α : Type} (p : KeyPath) (o : Option (CfgLayer α)) :
    Decidable (optClean p o) := by
  cases o with
  | none => exact isTrue trivial
  | some t => exact (inferInstance : Decidable (cleanFor p t))

theorem find?_filter_of_keep {β : Type} (l : List β) (pr keep : β → Bool)
    (h : ∀ x ∈ l, pr x = true → keep x = true) :
    (l.filter keep).find? pr = l.find? pr := by
  induction l with
  | nil => rfl
  | cons x tl ih =>
    by_cases hk : keep x = true
    · rw [List.filter_cons_of_pos hk]
      by_cases hp : pr x = true
      · rw [List.find?_cons_of_pos _ hp, List.find?_cons_of_pos _ hp]
      · rw [List.find?_cons_of_neg _ (by simpa using hp),
          List.find?_cons_of_neg _ (by simpa using hp)]
        exact ih (fun y hy => h y (List.mem_cons_of_mem _ hy))
    · rw [List.filter_cons_of_neg (by simpa using hk)]
      have hp : pr x = false := by
        cases hpx : pr x
        · rfl
        · exact absurd (h x (List.mem_cons_self _ _) hpx) hk
      rw [List.find?_cons_of_neg _ (by simp [hp])]
      exact ih (fun y hy => h y (List.mem_cons_of_mem _ hy))

theorem lookupPath_eq_none_iff {α : Type} (t : CfgLayer α) (p : KeyPath) :
    lookupPath t p = none ↔ ∀ e ∈ t, e.1 ≠ p := by
  unfold lookupPath
  rw [Option.map_eq_none', List.find?_eq_none]
  constructor
  · intro h e he
    simpa using h e he
  · intro h e he
    simpa using h e he

/-- Merging with a layer that is clean for p makes lookup at p fall back
from the higher-priority layer to the lower-priority one. -/
theorem lookupPath_mergeLayers {α : Type} (a b : CfgLayer α) (p : KeyPath)
    (hb : cleanFor p b) :
    lookupPath (mergeLayers a b) p = (lookupPath b p).or (lookupPath a p) := by
  unfold mergeLayers
  show lookupPath (b ++ _) p = _
  unfold lookupPath
  rw [List.find?_append]
  cases hf : List.find? (fun e => e.1 == p) b with
  | some e =>
    rfl
  | none =>
    have hbnone : ∀ e ∈ b, e.1 ≠ p := by
      intro e he
      have := List.find?_eq_none.mp hf e he
      simpa using this
    rw [find?_filter_of_keep]
    · rfl
    · intro e he hpr
      have hep : e.1 = p := by simpa using hpr
      have : layerOverrides b p = false := by
        unfold layerOverrides
        rw [List.any_eq_false]
        intro x hx
        rcases hb x hx with h1 | h1
        · exact absurd h1 (hbnone x hx)
        · simp [h1]
      rw [hep, this]
      rfl

/-- Claim C1, amended. For every key path p, if each present overriding
layer is clean for p (no binding at a strict prefix of p, which would
replace the subtree containing p wholesale, and none strictly below p,
which would turn p into a nested mapping), the resolved value at p is the
value of the highest-priority present layer that defines p, resolution
falling back over absent or unreadable layers, which are skipped
silently. -/
theorem C1_precedence {α : Type} (d : CfgLayer α)
    (home_cfg cwd_cfg : Option (CfgLayer α)) (p : KeyPath)
    (hh : optClean p home_cfg) (hc : optClean p cwd_cfg) :
    lookupPath (resolveTECH d home_cfg cwd_cfg) p =
      ((optLayerLookup cwd_cfg p).or
        ((optLayerLookup home_cfg p).or (lookupPath d p))) := by
  cases cwd_cfg with
  | none =>
    cases home_cfg with
    | none => rfl
    | some h =>
      show lookupPath (mergeLayers d h) p = (lookupPath h p).or (lookupPath d p)
      exact lookupPath_mergeLayers d h p hh
  | some c =>
    cases home_cfg with
    | none =>
      show lookupPath (mergeLayers d c) p = (lookupPath c p).or (lookupPath d p)
      exact lookupPath_mergeLayers d c p hc
    | some h =>
      show lookupPath (mergeLayers (mergeLayers d h) c) p = _
      rw [lookupPath_mergeLayers _ c p hc, lookupPath_mergeLayers d h p hh]
      rfl

/-- Witness for C1 at concrete layers: the working-directory layer wins
where it defines the path, the machine layer is consulted next, the
default last. -/
theorem C1_witness :
    optClean ["a"] (some ([(["a"], (2 : Int)), ([("x" : String)], 9)] : CfgLayer Int)) ∧
    optClean ["a"] (some ([([("y" : String)], 3)] : CfgLayer Int)) ∧
    lookupPath (resolveTECH ([(["a"], (1 : Int))] : CfgLayer Int)
        (some [(["a"], 2), (["x"], 9)]) (some [(["y"], 3)])) ["a"] =
      ((optLayerLookup (some ([([("y" : String)], 3)] : CfgLayer Int)) ["a"]).or
        ((optLayerLookup (some ([(["a"], (2 : Int)), (["x"], 9)] : CfgLayer Int)) ["a"]).or
          (lookupPath ([(["a"], (1 : Int))] : CfgLayer Int) ["a"]))) :=
  ⟨by decide, by decide,
   C1_precedence [(["a"], 1)] (some [(["a"], 2), (["x"], 9)]) (some [(["y"], 3)])
     ["a"] (by decide) (by decide)⟩

/-- Claim C1, counterexample. The default and machine layers both define
the path a.b (values 1 and 2); the working-directory layer does not
define a.b but binds the scalar 7 at its prefix a, replacing the subtree
wholesale; the resolved configuration then holds nothing at a.b, not the
machine-layer value 2 that the claim requires. -/
theorem C1_counterexample :
    lookupPath ([((["a", "b"] : KeyPath), (1 : Int))] : CfgLayer Int) ["a", "b"]
      = some 1 ∧
    lookupPath ([((["a", "b"] : KeyPath), (2 : Int))] : CfgLayer Int) ["a", "b"]
      = some 2 ∧
    lookupPath ([((["a"] : KeyPath), (7 : Int))] : CfgLayer Int) ["a", "b"] = none ∧
    lookupPath (resolveTECH ([([("a" : String), "b"], (1 : Int))] : CfgLayer Int)
      (some [(["a", "b"], 2)]) (some [(["a"], 7)])) ["a", "b"] ≠ some 2 := by
  decide

/-! ## ConstantDeriver (source file pp/config.py, grid constants)

The source computes GRID_PER_UNIT = TECH.tech.grid_unit / grid_resolution
and GRID_ROUNDING_RESOLUTION = int(np.log10(GRID_PER_UNIT)). The two
configuration inputs are parameters here. Arithmetic is modelled exactly
over the rationals (the idealised real semantics of the floating-point
log10): for a positive rational q, the Python value int(log10 q) is the
truncation toward zero of log10 q, which equals Nat.log 10 of the integer
part of q when q is at least one (since 10 pow k is at most q exactly
when it is at most the integer part of q), and equals the negated floor
of log10 of the reciprocal otherwise (truncation toward zero of a
negative number is its ceiling, and the ceiling of minus x is minus the
floor of x). -/

/-- Exact value of Python int(log10 q) for positive rational q:
truncation of log10 toward zero. -/
def int_log10 (q : ℚ) : ℤ :=
  if 1 ≤ q then (Nat.log 10 (⌊q⌋.toNat) : ℤ) else -(Nat.log 10 (⌊q⁻¹⌋.toNat) : ℤ)

/-- Modelled from the spec: floor(log10 q), the integer rounded toward
negative infinity, for positive rational q. For q below one this is the
negated ceiling of log10 of the reciprocal (the floor of minus x is
minus the ceiling of x), and the ceiling of log10 on values at least one
is Nat.clog 10 of the ceiling integer part. -/
def ratLog10Floor (q : ℚ) : ℤ :=
  if 1 ≤ q then (Nat.log 10 (⌊q⌋.toNat) : ℤ) else -(Nat.clog 10 (⌈q⁻¹⌉.toNat) : ℤ)

/-- Embedding of GRID_PER_UNIT from pp/config.py, with the two resolved
configuration inputs as parameters. -/
def GRID_PER_UNIT (grid_unit grid_resolution : ℚ) : ℚ :=
  grid_unit / grid_resolution

/-- Embedding of GRID_ROUNDING_RESOLUTION from pp/config.py:
int(np.log10(GRID_PER_UNIT)). -/
def GRID_ROUNDING_RESOLUTION (grid_unit grid_resolution : ℚ) : ℤ :=
  int_log10 (GRID_PER_UNIT grid_unit grid_resolution)

/-- Claim C6, amended. The derived rounding resolution is the integer
truncation toward zero of log10 of grid_per_unit: it equals the claimed
floor whenever grid_per_unit is at least one, and for grid_per_unit
strictly below one it is at least the floor (strictly above it at
non-powers of ten, as the counterexample shows), so it is a truncation
toward zero and not a floor there. -/
theorem C6_rounding_resolution :
    (∀ u r : ℚ, 1 ≤ GRID_PER_UNIT u r →
      GRID_ROUNDING_RESOLUTION u r = ratLog10Floor (GRID_PER_UNIT u r)) ∧
    (∀ u r : ℚ, GRID_PER_UNIT u r < 1 →
      ratLog10Floor (GRID_PER_UNIT u r) ≤ GRID_ROUNDING_RESOLUTION u r) := by
  constructor
  · intro u r h
    unfold GRID_ROUNDING_RESOLUTION int_log10 ratLog10Floor
    rw [if_pos h, if_pos h]
  · intro u r h
    unfold GRID_ROUNDING_RESOLUTION int_log10 ratLog10Floor
    rw [if_neg (not_le.mpr h), if_neg (not_le.mpr h)]
    have h1 : Nat.log 10 ((⌊(GRID_PER_UNIT u r)⁻¹⌋).toNat) ≤
        Nat.clog 10 ((⌈(GRID_PER_UNIT u r)⁻¹⌉).toNat) :=
      le_trans (Nat.log_mono_right (Int.toNat_le_toNat (Int.floor_le_ceil _)))
        (Nat.log_le_clog _ _)
    exact neg_le_neg (by exact_mod_cast h1)

/-- Witness for C6 at grid_unit 10 and grid_resolution 1, where
grid_per_unit is at least one and truncation and floor agree. -/
theorem C6_witness :
    (1 : ℚ) ≤ GRID_PER_UNIT 10 1 ∧
    GRID_ROUNDING_RESOLUTION 10 1 = ratLog10Floor (GRID_PER_UNIT 10 1) :=
  ⟨by norm_num [GRID_PER_UNIT], C6_rounding_resolution.1 10 1 (by norm_num [GRID_PER_UNIT])⟩

/-- Claim C6, counterexample. At grid_unit 1 and grid_resolution 2,
grid_per_unit is one half, log10 of which lies strictly between minus
one and zero: int() truncates it to 0 while the floor is -1, so the
derived value differs from floor(log10(grid_per_unit)). -/
theorem C6_counterexample :
    GRID_ROUNDING_RESOLUTION 1 2 ≠ ratLog10Floor (GRID_PER_UNIT 1 2) := by
  have hg : GRID_PER_UNIT 1 2 = 1/2 := by norm_num [GRID_PER_UNIT]
  have hlt : ¬ (1 : ℚ) ≤ GRID_PER_UNIT 1 2 := by
    rw [hg]; norm_num
  have hinv : (GRID_PER_UNIT 1 2)⁻¹ = 2 := by
    rw [hg]; norm_num
  unfold GRID_ROUNDING_RESOLUTION int_log10 ratLog10Floor
  rw [if_neg hlt, if_neg hlt, hinv]
  rw [show (⌊(2:ℚ)⌋).toNat = 2 by rw [show ⌊(2:ℚ)⌋ = 2 by norm_num]; rfl]
  rw [show (⌈(2:ℚ)⌉).toNat = 2 by rw [show ⌈(2:ℚ)⌉ = 2 by norm_num]; rfl]
  rw [Nat.log_of_lt (by norm_num), Nat.clog_eq_one (by norm_num) (by norm_num)]
  norm_num

/-! ## ConfigAccessor serialization (source file pp/config.py,
complex_encoder and write_config)

Python values handed to json.dump are embedded as a tree: the natively
representable constructors (None, bool, number, str, list, dict with
string keys), a pathlib.Path carrying its string form, and any other
object abstracted by its repr string and type name. The json.dump driver
serializes natives structurally and passes every other value to the
default encoder, here complex_encoder, whose returned string is emitted;
a raised TypeError is modelled as the error branch of Except. -/

mutual

inductive PyVal : Type where
  | pynone
  | pybool (b : Bool)
  | pynum (q : ℚ)
  | pystr (s : String)
  | pylist (xs : PyList)
  | pydict (kvs : PyDict)
  | pypath (s : String)
  | pyobj (objRepr objType : String)

inductive PyList : Type where
  | nil
  | cons (v : PyVal) (tl : PyList)

inductive PyDict : Type where
  | nil
  | cons (k : String) (v : PyVal) (tl : PyDict)

end

/-- JSON values, the output of serialization. -/
inductive JVal : Type where
  | jnull
  | jbool (b : Bool)
  | jnum (q : ℚ)
  | jstr (s : String)
  | jarr (xs : List JVal)
  | jobj (kvs : List (String × JVal))

/-- The Python type name of a value (type(z) in the source message). -/
def pyTypeName : PyVal → String
  | .pynone => "NoneType"
  | .pybool _ => "bool"
  | .pynum _ => "float"
  | .pystr _ => "str"
  | .pylist _ => "list"
  | .pydict _ => "dict"
  | .pypath _ => "PosixPath"
  | .pyobj _ t => t

mutual

/-- The Python repr of a value ({z} in the source message); string
quoting is elided, arbitrary objects carry their repr directly. -/
def pyReprStr : PyVal → String
  | .pynone => "None"
  | .pybool true => "True"
  | .pybool false => "False"
  | .pynum q => toString q
  | .pystr s => s
  | .pylist xs => "[" ++ pyReprList xs ++ "]"
  | .pydict kvs => "\x7b" ++ pyReprDict kvs ++ "\x7d"
  | .pypath s => s
  | .pyobj r _ => r

def pyReprList : PyList → String
  | .nil => ""
  | .cons v .nil => pyReprStr v
  | .cons v tl => pyReprStr v ++ ", " ++ pyReprList tl

def pyReprDict : PyDict → String
  | .nil => ""
  | .cons k v .nil => k ++ ": " ++ pyReprStr v
  | .cons k v tl => k ++ ": " ++ pyReprStr v ++ ", " ++ pyReprDict tl

end

/-- Embedding of complex_encoder from pp/config.py: a pathlib.Path is
rendered as its string form str(z); any other value raises a TypeError
whose message names the offending value and its type. -/
def complex_encoder (z : PyVal) : Except String String :=
  match z with
  | .pypath s => Except.ok s
  | _ => Except.error ("Object " ++ pyReprStr z ++ " of type " ++ pyTypeName z
      ++ " is not serializable")

mutual

/-- Embedding of the serialization performed by write_config in
pp/config.py: json.dump with default complex_encoder. Natively
representable values are encoded structurally; every other value is
passed to complex_encoder and its returned string emitted, or the raised
TypeError propagated. -/
def serializePy : PyVal → Except String JVal
  | .pynone => Except.ok JVal.jnull
  | .pybool b => Except.ok (JVal.jbool b)
  | .pynum q => Except.ok (JVal.jnum q)
  | .pystr s => Except.ok (JVal.jstr s)
  | .pylist xs =>
    match serializeList xs with
    | Except.ok js => Except.ok (JVal.jarr js)
    | Except.error e => Except.error e
  | .pydict kvs =>
    match serializeDict kvs with
    | Except.ok js => Except.ok (JVal.jobj js)
    | Except.error e => Except.error e
  | v =>
    match complex_encoder v with
    | Except.ok s => Except.ok (JVal.jstr s)
    | Except.error e => Except.error e

def serializeList : PyList → Except String (List JVal)
  | .nil => Except.ok []
  | .cons v tl =>
    match serializePy v with
    | Except.ok j =>
      match serializeList tl with
      | Except.ok js => Except.ok (j :: js)
      | Except.error e => Except.error e
    | Except.error e => Except.error e

def serializeDict : PyDict → Except String (List (String × JVal))
  | .nil => Except.ok []
  | .cons k v tl =>
    match serializePy v with
    | Except.ok j =>
      match serializeDict tl with
      | Except.ok js => Except.ok ((k, j) :: js)
      | Except.error e => Except.error e
    | Except.error e => Except.error e

end

mutual

/-- Whether a value contains, anywhere inside it, an object of a type
the serialization cannot natively represent. -/
def containsObj : PyVal → Bool
  | .pyobj _ _ => true
  | .pylist xs => containsObjList xs
  | .pydict kvs => containsObjDict kvs
  | _ => false

def containsObjList : PyList → Bool
  | .nil => false
  | .cons v tl => containsObj v || containsObjList tl

def containsObjDict : PyDict → Bool
  | .nil => false
  | .cons _ v tl => containsObj v || containsObjDict tl

end

mutual

theorem serializePy_err : ∀ v : PyVal, containsObj v = true →
    ∃ e, serializePy v = Except.error e
  | PyVal.pylist xs, h => by
    obtain ⟨e, he⟩ := serializeList_err xs (by simpa [containsObj] using h)
    exact ⟨e, by simp [serializePy, he]⟩
  | PyVal.pydict kvs, h => by
    obtain ⟨e, he⟩ := serializeDict_err kvs (by simpa [containsObj] using h)
    exact ⟨e, by simp [serializePy, he]⟩
  | PyVal.pyobj r t, _ =>
    ⟨"Object " ++ r ++ " of type " ++ t ++ " is not serializable", rfl⟩
  | PyVal.pynone, h => by simp [containsObj] at h
  | PyVal.pybool b, h => by simp [containsObj] at h
  | PyVal.pynum q, h => by simp [containsObj] at h
  | PyVal.pystr s, h => by simp [containsObj] at h
  | PyVal.pypath s, h => by simp [containsObj] at h

theorem serializeList_err : ∀ xs : PyList, containsObjList xs = true →
    ∃ e, serializeList xs = Except.error e
  | PyList.cons v tl, h => by
    cases hv : containsObj v with
    | true =>
      obtain ⟨e, he⟩ := serializePy_err v hv
      exact ⟨e, by simp [serializeList, he]⟩
    | false =>
      have htl : containsObjList tl = true := by
        have := h
        simp only [containsObjList, hv, Bool.false_or] at this
        exact this
      obtain ⟨e, he⟩ := serializeList_err tl htl
      cases hs : serializePy v with
      | ok j => exact ⟨e, by simp [serializeList, hs, he]⟩
      | error e2 => exact ⟨e2, by simp [serializeList, hs]⟩

theorem serializeDict_err : ∀ kvs : PyDict, containsObjDict kvs = true →
    ∃ e, serializeDict kvs = Except.error e
  | PyDict.cons k v tl, h => by
    cases hv : containsObj v with
    | true =>
      obtain ⟨e, he⟩ := serializePy_err v hv
      exact ⟨e, by simp [serializeDict, he]⟩
    | false =>
      have htl : containsObjDict tl = true := by
        have := h
        simp only [containsObjDict, hv, Bool.false_or] at this
        exact this
      obtain ⟨e, he⟩ := serializeDict_err tl htl
      cases hs : serializePy v with
      | ok j => exact ⟨e, by simp [serializeDict, hs, he]⟩
      | error e2 => exact ⟨e2, by simp [serializeDict, hs]⟩

end

/-- Claim C7. Every filesystem-path value is encoded as its string form
(both by the encoder itself and by the serializer); any value of a type
the serialization cannot natively represent makes the whole write fail
with an error naming the offending value and its type, and a structure
containing such a value anywhere inside never serializes successfully
(no silent drop). -/
theorem C7_serialization :
    (∀ s, complex_encoder (PyVal.pypath s) = Except.ok s) ∧
    (∀ s, serializePy (PyVal.pypath s) = Except.ok (JVal.jstr s)) ∧
    (∀ r t, serializePy (PyVal.pyobj r t) =
      Except.error ("Object " ++ r ++ " of type " ++ t ++ " is not serializable")) ∧
    (∀ v : PyVal, containsObj v = true → ∃ e, serializePy v = Except.error e) :=
  ⟨fun _ => rfl, fun _ => rfl, fun _ _ => rfl, serializePy_err⟩

/-- Witness for C7: a list containing a git Repo object fails to
serialize. -/
theorem C7_witness :
    containsObj (PyVal.pylist (PyList.cons (PyVal.pyobj ("<git.repo.Repo>") ("Repo"))
      PyList.nil)) = true ∧
    ∃ e, serializePy (PyVal.pylist (PyList.cons
      (PyVal.pyobj ("<git.repo.Repo>") ("Repo")) PyList.nil)) = Except.error e :=
  ⟨rfl, C7_serialization.2.2.2 _ rfl⟩

/-! ## ProvenanceAnnotator (source file pp/config.py, TECH.info block)

The source sets TECH.info.version to the fixed version string, then
inside try/except queries GitPython: the outer try catches only
ImportError (provider unavailable), the inner try catches only
InvalidGitRepositoryError while querying first the repository path and
then the working directory. The provider is abstracted by the outcome of
each query; an exception other than the two caught kinds is modelled by
the error branch of Except, meaning it propagates past the annotator. -/

/-- The fixed library version string of pp/config.py. -/
def VERSION : String := "2.4.9"

/-- Outcome of one query to the version-control provider. -/
inductive GitOutcome : Type where
  | hash (h : String)
  | invalidRepo
  | otherError (e : String)
  deriving DecidableEq

/-- The provenance fields the annotator sets: the version, the revision
hash of the repository path (info.git_hash in the source) and the
revision hash of the working directory (git_hash_cwd in the source). -/
structure ProvenanceInfo : Type where
  version : String
  git_hash : Option String
  git_hash_cwd : Option String
  deriving DecidableEq

/-- Embedding of the provenance annotation of pp/config.py: version set
first; when the import succeeds, the repository query runs, then the
working-directory query; InvalidGitRepositoryError at either point
aborts the remaining hash assignments silently (fields stay omitted),
ImportError is silent, and any other provider exception propagates. -/
def annotate (git_available : Bool) (repo_outcome cwd_outcome : GitOutcome) :
    Except String ProvenanceInfo :=
  let info : ProvenanceInfo :=
    { version := VERSION, git_hash := none, git_hash_cwd := none }
  if git_available then
    match repo_outcome with
    | GitOutcome.hash h1 =>
      match cwd_outcome with
      | GitOutcome.hash h2 =>
        Except.ok { info with git_hash := some h1, git_hash_cwd := some h2 }
      | GitOutcome.invalidRepo =>
        Except.ok { info with git_hash := some h1 }
      | GitOutcome.otherError e => Except.error e
    | GitOutcome.invalidRepo => Except.ok info
    | GitOutcome.otherError e => Except.error e
  else Except.ok info

/-- Claim C8, amended. The annotator sets the version field to the fixed
library version string in every run it survives; failures of the two
anticipated kinds (provider unavailable, not a repository) leave the
revision fields omitted without raising; but a provider exception of any
other kind propagates past the annotator. -/
theorem C8_provenance :
    (∀ ro co, annotate false ro co =
      Except.ok ⟨VERSION, none, none⟩) ∧
    (∀ co, annotate true GitOutcome.invalidRepo co =
      Except.ok ⟨VERSION, none, none⟩) ∧
    (∀ h1, annotate true (GitOutcome.hash h1) GitOutcome.invalidRepo =
      Except.ok ⟨VERSION, some h1, none⟩) ∧
    (∀ h1 h2, annotate true (GitOutcome.hash h1) (GitOutcome.hash h2) =
      Except.ok ⟨VERSION, some h1, some h2⟩) ∧
    (∀ avail ro co info, annotate avail ro co = Except.ok info →
      info.version = VERSION) := by
  refine ⟨fun ro co => rfl, fun co => rfl, fun h1 => rfl, fun h1 h2 => rfl, ?_⟩
  intro avail ro co info h
  cases avail <;> cases ro <;> cases co <;>
    simp only [annotate, if_true, if_false, Except.ok.injEq] at h <;>
    first
      | (rw [← h])
      | cases h
  all_goals rfl

/-- Witness for C8: the provider being unavailable yields the ok result
with the version set and both revisions omitted. -/
theorem C8_witness :
    annotate false GitOutcome.invalidRepo GitOutcome.invalidRepo =
      Except.ok ⟨VERSION, none, none⟩ ∧
    (⟨VERSION, none, none⟩ : ProvenanceInfo).version = VERSION :=
  ⟨rfl, C8_provenance.2.2.2.2 false GitOutcome.invalidRepo GitOutcome.invalidRepo
    ⟨VERSION, none, none⟩ rfl⟩

/-- Claim C8, counterexample. A provider failure that is neither an
ImportError nor an InvalidGitRepositoryError (here a NoSuchPathError
raised on the repository query) is caught by neither except clause, so
the exception propagates past the annotator, refuting the claim that no
provider exception ever does. -/
theorem C8_counterexample :
    annotate true (GitOutcome.otherError ("NoSuchPathError")) (GitOutcome.hash ("abc"))
      = Except.error ("NoSuchPathError") := rfl

/-! ## ConfigAccessor read path and DirectoryProvisioner gdslib entry
(source file pp/config.py, print_config and CONFIG)

Configuration values are embedded with their Python truthiness: None,
False, zero and the empty string are falsy; a pathlib.Path object is
always truthy. OmegaConf attribute access and .get on a missing key
return None. -/

/-- A scalar configuration value of pp/config.py, with its Python
truthiness. -/
inductive CfgVal : Type where
  | vnone
  | vbool (b : Bool)
  | vnum (q : ℚ)
  | vstr (s : String)
  | vpath (s : String)
  deriving DecidableEq

/-- Python truthiness of a configuration value. -/
def CfgVal.truthy : CfgVal → Bool
  | CfgVal.vnone => false
  | CfgVal.vbool b => b
  | CfgVal.vnum q => decide (q ≠ 0)
  | CfgVal.vstr s => decide (s ≠ "")
  | CfgVal.vpath _ => true

/-- Truthiness of the result of a .get lookup (None when absent). -/
def truthyOpt : Option CfgVal → Bool
  | none => false
  | some v => v.truthy

/-- What print_config writes to standard output for a given key. -/
inductive PrintedOutput : Type where
  | value (v : CfgVal)
  | message (s : String)
  deriving DecidableEq

/-- Embedding of the keyed branch of print_config from pp/config.py:
if TECH.get(key) then print TECH[key], elif CONFIG.get(key) then print
CONFIG[key], else print the not-found message naming the key and the
working-directory config path. The source tests the truthiness of the
looked-up value, not the presence of the key. -/
def print_config (tech config : List (String × CfgVal))
    (cwd_config_path key : String) : PrintedOutput :=
  if truthyOpt (dictGet tech key) then
    PrintedOutput.value ((dictGet tech key).getD CfgVal.vnone)
  else if truthyOpt (dictGet config key) then
    PrintedOutput.value ((dictGet config key).getD CfgVal.vnone)
  else
    PrintedOutput.message ("`" ++ key ++ "` key not found in " ++ cwd_config_path)

/-- Claim C9, amended. The accessor prints the resolved-configuration
value when the key is present there with a truthy value, else the
path-table value when present and truthy there, and otherwise the
not-found message; because the source tests truthiness rather than key
presence, a key present with a falsy value is skipped rather than
returned. -/
theorem C9_print_config (tech config : List (String × CfgVal))
    (cp k : String) :
    (∀ v, dictGet tech k = some v → v.truthy = true →
      print_config tech config cp k = PrintedOutput.value v) ∧
    (truthyOpt (dictGet tech k) = false →
      ∀ v, dictGet config k = some v → v.truthy = true →
      print_config tech config cp k = PrintedOutput.value v) ∧
    (truthyOpt (dictGet tech k) = false →
      truthyOpt (dictGet config k) = false →
      print_config tech config cp k =
        PrintedOutput.message ("`" ++ k ++ "` key not found in " ++ cp)) := by
  refine ⟨?_, ?_, ?_⟩
  · intro v hv ht
    unfold print_config
    rw [hv]
    rw [if_pos (by simpa [truthyOpt] using ht)]
    rfl
  · intro hf v hv ht
    unfold print_config
    rw [if_neg (by simp [hf]), hv, if_pos (by simpa [truthyOpt] using ht)]
    rfl
  · intro hf hg
    unfold print_config
    rw [if_neg (by simp [hf]), if_neg (by simp [hg])]

/-- Witness for C9 at concrete tables: a truthy resolved value is
printed; a key absent from the resolved configuration but truthy in the
path table is printed from there; an absent key gives the message. -/
theorem C9_witness :
    dictGet [(("a" : String), CfgVal.vnum 1)] ("a") = some (CfgVal.vnum 1) ∧
    (CfgVal.vnum 1).truthy = true ∧
    print_config [(("a" : String), CfgVal.vnum 1)] [] ("config.yml") ("a") =
      PrintedOutput.value (CfgVal.vnum 1) :=
  ⟨rfl, by decide,
   (C9_print_config [(("a" : String), CfgVal.vnum 1)] [] ("config.yml") ("a")).1
     (CfgVal.vnum 1) rfl (by decide)⟩

/-- Claim C9, counterexample. The key gdslib is present in the resolved
configuration with the (falsy) empty-string value; the claim requires
the accessor to return that value regardless of what it is, but the
source's truthiness test skips it and, with the path table empty, prints
the not-found message instead. -/
theorem C9_counterexample :
    dictGet [(("gdslib" : String), CfgVal.vstr "")] ("gdslib")
      = some (CfgVal.vstr "") ∧
    print_config [(("gdslib" : String), CfgVal.vstr "")] [] ("config.yml") ("gdslib")
      ≠ PrintedOutput.value (CfgVal.vstr "") ∧
    print_config [(("gdslib" : String), CfgVal.vstr "")] [] ("config.yml") ("gdslib")
      = PrintedOutput.message ("`gdslib` key not found in config.yml") := by
  refine ⟨rfl, ?_, ?_⟩ <;> decide

/-- Embedding of the gdslib entry of CONFIG from pp/config.py:
CONFIG["gdslib"] = TECH.gdslib or repo_path / "gdslib". OmegaConf
attribute access yields None when the key is missing; the Python or
operator returns its first operand when truthy and its second otherwise;
path joining is string concatenation with a separator. -/
def config_gdslib (tech_gdslib : Option CfgVal) (repo_path : String) : CfgVal :=
  let v := tech_gdslib.getD CfgVal.vnone
  if v.truthy then v else CfgVal.vpath (repo_path ++ "/gdslib")

/-- Claim C10. The gds-library entry falls back to the default location
(repository path joined with gdslib) not only when the key is absent but
whenever the configured value is falsy (None, False, zero, the empty
string), the test being truthiness of the value rather than presence of
the key; a truthy configured value is kept as is. -/
theorem C10_gdslib_fallback (repo : String) :
    (config_gdslib none repo = CfgVal.vpath (repo ++ "/gdslib")) ∧
    (∀ v, v.truthy = false →
      config_gdslib (some v) repo = CfgVal.vpath (repo ++ "/gdslib")) ∧
    (∀ v, v.truthy = true → config_gdslib (some v) repo = v) := by
  refine ⟨rfl, ?_, ?_⟩
  · intro v hv
    unfold config_gdslib
    rw [if_neg (by simp [hv])]
  · intro v hv
    unfold config_gdslib
    rw [if_pos (by simpa using hv)]
    rfl

/-- Witness for C10: the deliberately configured empty string is falsy
and is silently replaced by the default location. -/
theorem C10_witness :
    (CfgVal.vstr "").truthy = false ∧
    config_gdslib (some (CfgVal.vstr "")) ("/repo") = CfgVal.vpath ("/repo/gdslib") ∧
    (CfgVal.vpath "x").truthy = true ∧
    config_gdslib (some (CfgVal.vpath "x")) ("/repo") = CfgVal.vpath "x" :=
  ⟨by decide,
   by
     have h := (C10_gdslib_fallback ("/repo")).2.1 (CfgVal.vstr "") (by decide)
     simpa using h,
   by decide,
   (C10_gdslib_fallback ("/repo")).2.2 (CfgVal.vpath "x") (by decide)⟩
